import Mathlib

/-!
Verification development for the FTBA multi-agent trading system.

The definitions below are a shallow embedding of the message broker, the
agent runtime loop and the trade-execution agent of the repository:

* `MessageType`, `Message`, `Broker` and its operations embed
  `src/system/agent.py` (classes `MessageType`, `Message`, `MessageBroker`).
* `drainInbox`, `runLoopFuel`, `processLoopIter` embed the inbox-draining
  part of `Agent._process_loop` in `src/system/agent.py`.
* `AgentState`, `sendMessage`, `sendMessageBatchA` embed the outbound
  batching of `Agent.send_message` in `src/system/agent.py`.
* `TradeStatus`, `TradeProposal`, `handleTradeApproval`,
  `processApprovedProposals`, `executeTrade` embed
  `src/system/core.py` and `src/agents/trade_execution_agent.py`.

Modelling conventions, used consistently:

* Python dicts whose absent key behaves like an empty collection are
  embedded as total functions with a default value (`subscribers` defaults
  to the empty set, mirroring the `if msg_type not in self.subscribers`
  branches of the source); dicts where key presence matters are embedded
  as `Option`-valued functions (`queues`, `subscribersCache`,
  `cacheTimestamps`).
* `datetime.utcnow()` timestamps are embedded as integers counting
  milliseconds, supplied as explicit `now` arguments at each point where
  the source reads the clock; this is an order-preserving rescaling of
  the float seconds of the source, so the source's 0.1-second batch
  interval becomes 100 and its 5.0-second default cache timeout 5000.
* An `asyncio.Queue` inbox is embedded as a `List` with the front of the
  queue at the head; `put` appends at the tail.
* A Python function that raises and a caller that catches are embedded
  with `Option`/`Bool` results; totality of the Lean functions embeds the
  fact that the corresponding source operation returns to its caller
  without propagating an exception.
-/

/-- Embeds the `MessageType` enum of `src/system/agent.py` (lines 10-23).
The source enum has exactly these twelve members, in this order.  Note
that it has no `MARKET_DATA` member. -/
inductive MessageType where
  | SYSTEM_STATUS
  | TECHNICAL_SIGNAL
  | FUNDAMENTAL_UPDATE
  | TRADE_PROPOSAL
  | TRADE_APPROVAL
  | TRADE_REJECTION
  | TRADE_EXECUTION
  | TRADE_RESULT
  | STRATEGY_UPDATE
  | RISK_UPDATE
  | RISK_ASSESSMENT
  | ERROR
  deriving DecidableEq, Fintype, Repr

/-- The name of each `MessageType` member, as in the Python source. -/
def messageTypeName : MessageType → String
  | .SYSTEM_STATUS => "SYSTEM_STATUS"
  | .TECHNICAL_SIGNAL => "TECHNICAL_SIGNAL"
  | .FUNDAMENTAL_UPDATE => "FUNDAMENTAL_UPDATE"
  | .TRADE_PROPOSAL => "TRADE_PROPOSAL"
  | .TRADE_APPROVAL => "TRADE_APPROVAL"
  | .TRADE_REJECTION => "TRADE_REJECTION"
  | .TRADE_EXECUTION => "TRADE_EXECUTION"
  | .TRADE_RESULT => "TRADE_RESULT"
  | .STRATEGY_UPDATE => "STRATEGY_UPDATE"
  | .RISK_UPDATE => "RISK_UPDATE"
  | .RISK_ASSESSMENT => "RISK_ASSESSMENT"
  | .ERROR => "ERROR"

/-- The member names of the `MessageType` enum of `src/system/agent.py`,
in declaration order (lines 12-23 of the source). -/
def messageTypeMemberNames : List String :=
  ["SYSTEM_STATUS", "TECHNICAL_SIGNAL", "FUNDAMENTAL_UPDATE",
   "TRADE_PROPOSAL", "TRADE_APPROVAL", "TRADE_REJECTION",
   "TRADE_EXECUTION", "TRADE_RESULT", "STRATEGY_UPDATE",
   "RISK_UPDATE", "RISK_ASSESSMENT", "ERROR"]

/-- The message kinds that `TradeExecutionAgent.setup` subscribes to, by
name, from `src/agents/trade_execution_agent.py` lines 65-69.  The third
entry is written `MessageType.MARKET_DATA` in the source. -/
def tradeExecutionSetupSubscribedNames : List String :=
  ["SYSTEM_STATUS", "TRADE_APPROVAL", "MARKET_DATA"]

/-- Embeds the `Message` class of `src/system/agent.py` (lines 26-50):
id, type, sender, recipients, content payload and creation timestamp.
The payload dictionary is carried opaquely as a string; the broker never
inspects it. -/
structure Message where
  id : String
  type : MessageType
  sender : String
  recipients : List String
  content : String
  timestamp : ℤ
  deriving DecidableEq, Repr

/-- Embeds the state of the `MessageBroker` class of `src/system/agent.py`
(lines 53-71): the subscription index, the inbox table (`queues`, one
inbox per registered agent id), the message counter, the subscriber cache
with its timestamps, and the two configuration values. -/
structure Broker where
  subscribers : MessageType → Finset String
  queues : String → Option (List Message)
  messageCounter : ℕ
  subscribersCache : MessageType → Option (Finset String)
  cacheTimestamps : MessageType → Option ℤ
  batchSize : ℕ
  cacheTimeout : ℤ

attribute [ext] Broker

/-- Embeds `MessageBroker.__init__` (lines 56-71): empty subscription
index, empty inbox table, counter zero, empty cache. -/
def mkBroker (batchSize : ℕ) (cacheTimeout : ℤ) : Broker :=
  { subscribers := fun _ => ∅
    queues := fun _ => none
    messageCounter := 0
    subscribersCache := fun _ => none
    cacheTimestamps := fun _ => none
    batchSize := batchSize
    cacheTimeout := cacheTimeout }

/-- Embeds `MessageBroker.register_agent` (lines 73-89): if the id is
already registered the broker state is unchanged (the existing queue is
returned with a warning), otherwise a fresh empty inbox is created. -/
def registerAgent (agentId : String) (st : Broker) : Broker :=
  if (st.queues agentId).isSome then st
  else { st with queues := fun b => if b = agentId then some [] else st.queues b }

/-- Embeds the cache-invalidation step repeated at lines 106-109, 127-130
and 146-149 of `src/system/agent.py`: when the cache holds an entry for
the kind, the entry is deleted together with its timestamp; when it does
not, nothing is deleted (in the source the timestamp deletion is nested
under the cache-entry presence check). -/
def invalidateCacheFor (t : MessageType) (st : Broker) : Broker :=
  if (st.subscribersCache t).isSome then
    { st with
      subscribersCache := fun u => if u = t then none else st.subscribersCache u
      cacheTimestamps := fun u => if u = t then none else st.cacheTimestamps u }
  else st

/-- One iteration of the loop body of `MessageBroker.subscribe`
(lines 121-130): add the agent to the kind's subscriber set (creating the
set when the kind had no entry, which the default-empty-set embedding
makes implicit) and invalidate the cache for that kind. -/
def subscribeOne (agentId : String) (t : MessageType) (st : Broker) : Broker :=
  invalidateCacheFor t
    { st with
      subscribers := fun u => if u = t then insert agentId (st.subscribers u) else st.subscribers u }

/-- Embeds `MessageBroker.subscribe` (lines 113-132): the loop over the
requested kinds. -/
def subscribeAgent (agentId : String) (ts : List MessageType) (st : Broker) : Broker :=
  ts.foldl (fun s t => subscribeOne agentId t s) st

/-- One iteration of the loop body of `MessageBroker.unsubscribe`
(lines 142-149): when the agent is in the kind's subscriber set, remove
it and invalidate the cache for that kind; otherwise do nothing. -/
def unsubscribeOne (agentId : String) (t : MessageType) (st : Broker) : Broker :=
  if agentId ∈ st.subscribers t then
    invalidateCacheFor t
      { st with
        subscribers := fun u => if u = t then (st.subscribers u).erase agentId else st.subscribers u }
  else st

/-- Embeds `MessageBroker.unsubscribe` (lines 134-151): the loop over the
requested kinds. -/
def unsubscribeAgent (agentId : String) (ts : List MessageType) (st : Broker) : Broker :=
  ts.foldl (fun s t => unsubscribeOne agentId t s) st

/-- Embeds `MessageBroker.unregister_agent` (lines 91-111): delete the
inbox when present, then for every kind whose subscriber set contains the
agent, remove the agent and invalidate that kind's cache entry (with its
timestamp, the timestamp deletion being nested under the cache-presence
check as in the source). -/
def unregisterAgent (agentId : String) (st : Broker) : Broker :=
  let st1 :=
    if (st.queues agentId).isSome then
      { st with queues := fun b => if b = agentId then none else st.queues b }
    else st
  { st1 with
    subscribers := fun t =>
      if agentId ∈ st1.subscribers t then (st1.subscribers t).erase agentId else st1.subscribers t
    subscribersCache := fun t =>
      if agentId ∈ st1.subscribers t ∧ (st1.subscribersCache t).isSome then none
      else st1.subscribersCache t
    cacheTimestamps := fun t =>
      if agentId ∈ st1.subscribers t ∧ (st1.subscribersCache t).isSome then none
      else st1.cacheTimestamps t }

/-- Embeds `MessageBroker._get_subscribers_for_message_type`
(lines 153-179): return the cached snapshot when one exists and is
younger than `cache_timeout` (the timestamp read uses default 0 as in
`self._cache_timestamps.get(msg_type, 0)`); otherwise snapshot the
current subscriber set, cache it with the current time, and return it. -/
def getSubscribersForMessageType (now : ℤ) (t : MessageType) (st : Broker) :
    Finset String × Broker :=
  if h : (st.subscribersCache t).isSome ∧ now - ((st.cacheTimestamps t).getD 0) < st.cacheTimeout then
    ((st.subscribersCache t).get h.1, st)
  else
    let s := st.subscribers t
    (s,
      { st with
        subscribersCache := fun u => if u = t then some s else st.subscribersCache u
        cacheTimestamps := fun u => if u = t then some now else st.cacheTimestamps u })

/-- Embeds one `queue.put` on a registered agent's inbox: append the
message at the tail of that agent's queue. -/
def enqueueTo (agentId : String) (m : Message) (q : String → Option (List Message)) :
    String → Option (List Message) :=
  fun b => if b = agentId then (q b).map (fun l => l ++ [m]) else q b

/-- Embeds the direct-recipient loop of `MessageBroker.publish`
(lines 192-194): walk the recipients list in order and enqueue to each
recipient that is currently registered; unregistered ids are skipped
silently. -/
def deliverToRecipients (m : Message) : List String → (String → Option (List Message)) →
    (String → Option (List Message))
  | [], q => q
  | r :: rest, q => deliverToRecipients m rest (if (q r).isSome then enqueueTo r m q else q)

/-- Embeds `MessageBroker.publish` (lines 181-204): increment the message
counter; if the recipients list is non-empty deliver to the registered
recipients only; otherwise resolve the subscribers of the message kind
through the cache and enqueue to every resolved subscriber that differs
from the sender and is currently registered. -/
def publish (now : ℤ) (m : Message) (st : Broker) : Broker :=
  let st1 : Broker := { st with messageCounter := st.messageCounter + 1 }
  if m.recipients ≠ [] then
    { st1 with queues := deliverToRecipients m m.recipients st1.queues }
  else
    let p := getSubscribersForMessageType now m.type st1
    { p.2 with
      queues := fun a =>
        if a ∈ p.1 ∧ a ≠ m.sender ∧ ((p.2).queues a).isSome then
          ((p.2).queues a).map (fun l => l ++ [m])
        else (p.2).queues a }

/-- Embeds `MessageBroker.get_next_message_id` (lines 244-251): format
the current counter without changing it. -/
def getNextMessageId (st : Broker) : String :=
  "msg_" ++ toString st.messageCounter

/-- Embeds the direct-message grouping step of `MessageBroker.publish_batch`
(lines 220-226): walk the recipients list and append the message to the
per-recipient group of each recipient currently registered (`q` is the
broker's inbox table, used only for the registration test). -/
def groupDirect (m : Message) (q : String → Option (List Message)) :
    List String → (String → List Message) → (String → List Message)
  | [], g => g
  | r :: rest, g =>
      groupDirect m q rest (if (q r).isSome then fun b => if b = r then g b ++ [m] else g b else g)

/-- Embeds the broadcast grouping step of `MessageBroker.publish_batch`
(lines 229-235): append the message to the group of every resolved
subscriber different from the sender and currently registered. -/
def broadcastGroup (m : Message) (subs : Finset String) (q : String → Option (List Message))
    (g : String → List Message) : String → List Message :=
  fun a => if a ∈ subs ∧ a ≠ m.sender ∧ (q a).isSome then g a ++ [m] else g a

/-- Embeds the grouping loop of `MessageBroker.publish_batch`
(lines 216-237): for each message in batch order, increment the counter
and extend the per-recipient groups; broadcast messages resolve their
subscribers through the cache, consuming one clock reading from `nows`
(the source reads `datetime.utcnow()` inside the resolution). -/
def publishBatchAux : List Message → List ℤ → Broker → (String → List Message) →
    Broker × (String → List Message)
  | [], _, st, g => (st, g)
  | m :: rest, nows, st, g =>
    let st1 : Broker := { st with messageCounter := st.messageCounter + 1 }
    if m.recipients ≠ [] then
      publishBatchAux rest nows st1 (groupDirect m st1.queues m.recipients g)
    else
      let p := getSubscribersForMessageType (nows.headD 0) m.type st1
      publishBatchAux rest nows.tail p.2 (broadcastGroup m p.1 (p.2).queues g)

/-- Embeds `MessageBroker.publish_batch` (lines 206-242): group the batch
per recipient in batch order, then write each recipient's group into its
inbox in one pass (lines 240-242). -/
def publishBatch (nows : List ℤ) (msgs : List Message) (st : Broker) : Broker :=
  let r := publishBatchAux msgs nows st (fun _ => [])
  { r.1 with queues := fun a => ((r.1).queues a).map (fun l => l ++ r.2 a) }

/-- The number of broadcast messages in a batch; each of them consumes
one clock reading during `publishBatchAux`. -/
def broadcastCount (msgs : List Message) : ℕ :=
  msgs.countP (fun m => m.recipients = [])

/-- The coherence property of the subscriber cache: whenever a kind has a
cached snapshot, the snapshot equals the current subscriber set of that
kind.  The broker establishes it at construction (empty cache) and every
operation preserves it, because each mutation of a subscriber set
invalidates the cache entry of the affected kind. -/
def CacheCoherent (st : Broker) : Prop :=
  ∀ t : MessageType,
    st.subscribersCache t = none ∨ st.subscribersCache t = some (st.subscribers t)

instance (st : Broker) : Decidable (CacheCoherent st) := by
  unfold CacheCoherent; infer_instance

/-- The public operations of the broker, used to quantify over arbitrary
interleavings of broker activity. -/
inductive BrokerOp where
  | registerA (a : String)
  | unregisterA (a : String)
  | subscribeA (a : String) (ts : List MessageType)
  | unsubscribeA (a : String) (ts : List MessageType)
  | publishA (now : ℤ) (m : Message)
  | publishBatchA (nows : List ℤ) (ms : List Message)

/-- Interpretation of one broker operation on the broker state. -/
def stepOp : BrokerOp → Broker → Broker
  | .registerA a, st => registerAgent a st
  | .unregisterA a, st => unregisterAgent a st
  | .subscribeA a ts, st => subscribeAgent a ts st
  | .unsubscribeA a ts, st => unsubscribeAgent a ts st
  | .publishA now m, st => publish now m st
  | .publishBatchA nows ms, st => publishBatch nows ms st

/-- Run a sequence of broker operations from left to right. -/
def runOps : List BrokerOp → Broker → Broker
  | [], st => st
  | op :: rest, st => runOps rest (stepOp op st)

/-- Holds of an operation that does not subscribe agent `a` to kind `K`;
a sequence of such operations cannot make `a` a subscriber of `K`
again. -/
def allowsStayUnsub (a : String) (K : MessageType) : BrokerOp → Bool
  | .subscribeA b ts => !(b = a && K ∈ ts)
  | _ => true

/-- Embeds the inner inbox-draining loop of `Agent._process_loop`
(`src/system/agent.py` lines 391-401): pop messages from the front of the
inbox while it is non-empty and fewer than `batchSize` messages have been
counted as processed; the handler outcome of each message is
`handler m` (`true` embeds a normal return of `handle_message`, `false`
embeds `handle_message` raising an exception, which the `except` clause
at line 398 logs and swallows).  The counter `messages_processed` is
incremented only on the `true` outcome, because the increment at
line 397 sits after the `await` inside the `try` block and is skipped
when the handler raises.  The result is the list of dequeued messages
paired with their handler outcome, and the part of the inbox left for
the next iteration. -/
def drainInbox {α : Type} (handler : α → Bool) (batchSize : ℕ) :
    List α → ℕ → List (α × Bool) × List α
  | [], _ => ([], [])
  | m :: rest, processed =>
    if processed < batchSize then
      let ok := handler m
      let next := drainInbox handler batchSize rest (if ok then processed + 1 else processed)
      ((m, ok) :: next.1, next.2)
    else ([], m :: rest)

/-- The outcome of one full iteration of `Agent._process_loop`: the drain
of the inbox (lines 391-401) followed by the unconditional invocation of
`process_cycle` (lines 411-417, whose exceptions are also logged and
swallowed); `cycleInvoked` records that the iteration reaches the
`process_cycle` call regardless of handler failures. -/
structure LoopIter (α : Type) where
  drained : List (α × Bool)
  remaining : List α
  cycleInvoked : Bool

/-- One full iteration of the cooperative loop of `Agent._process_loop`. -/
def processLoopIter {α : Type} (handler : α → Bool) (batchSize : ℕ) (queue : List α) :
    LoopIter α :=
  let d := drainInbox handler batchSize queue 0
  { drained := d.1, remaining := d.2, cycleInvoked := true }

/-- Iterated `while self.running` loop of `Agent._process_loop`, run with
a fuel bound on the number of iterations, on an inbox that receives no
new messages: each iteration drains a batch and leaves the rest. -/
def runLoopFuel {α : Type} (handler : α → Bool) (batchSize : ℕ) :
    ℕ → List α → List (α × Bool)
  | 0, _ => []
  | fuel + 1, queue =>
    let d := drainInbox handler batchSize queue 0
    d.1 ++ runLoopFuel handler batchSize fuel d.2

/-- The agent loop iterated until a pre-loaded inbox is fully drained
(one iteration consumes at least one message whenever the inbox is
non-empty and `batchSize` is positive, so `queue.length` iterations
always suffice). -/
def runProcessLoop {α : Type} (handler : α → Bool) (batchSize : ℕ) (queue : List α) :
    List (α × Bool) :=
  runLoopFuel handler batchSize queue.length queue

/-- Embeds the outbound-batching state of an `Agent`
(`src/system/agent.py` lines 257-274): the broker handle, the agent id,
the outbound message batch, the time of the last flush, and the batching
parameters copied from the broker (`_batch_size := broker.batch_size`,
`_batch_interval := 0.1`). -/
structure AgentState where
  broker : Broker
  agentId : String
  messageBatch : List Message
  lastBatchTime : ℤ
  agentBatchSize : ℕ
  batchInterval : ℤ

/-- Embeds `Agent.__init__` (lines 257-274): register with the broker,
start with an empty outbound batch, record the construction time as the
last flush time. -/
def mkAgent (agentId : String) (broker : Broker) (now : ℤ) : AgentState :=
  { broker := registerAgent agentId broker
    agentId := agentId
    messageBatch := []
    lastBatchTime := now
    agentBatchSize := broker.batchSize
    batchInterval := 100 }

/-- Embeds `Agent._send_message_batch` (lines 335-344): flush the
outbound batch through `publish_batch` when it is non-empty and reset
the flush time. -/
def sendMessageBatchA (nows : List ℤ) (now : ℤ) (st : AgentState) : AgentState :=
  if st.messageBatch = [] then st
  else
    { st with
      broker := publishBatch nows st.messageBatch st.broker
      messageBatch := []
      lastBatchTime := now }

/-- Embeds `Agent.send_message` (lines 294-327): build the message with
`msg_id := get_next_message_id()` (which reads the broker counter without
incrementing it), then either append it to the outbound batch — flushing
when the batch is full or the batch interval has elapsed — or, when
batching is disabled (`batch_size ≤ 1`), publish immediately.  The
one-shot timer task scheduled at line 324 fires `batchInterval` after the
first append and is modelled separately by an explicit later
`sendMessageBatchA` call. -/
def sendMessage (now : ℤ) (mtype : MessageType) (content : String)
    (recipients : Option (List String)) (st : AgentState) : AgentState :=
  let m : Message :=
    { id := getNextMessageId st.broker
      type := mtype
      sender := st.agentId
      recipients := recipients.getD []
      content := content
      timestamp := now }
  if 1 < st.agentBatchSize then
    let st1 := { st with messageBatch := st.messageBatch ++ [m] }
    if st1.agentBatchSize ≤ st1.messageBatch.length ∨ st1.batchInterval ≤ now - st1.lastBatchTime then
      sendMessageBatchA [now] now st1
    else st1
  else { st with broker := publish now m st.broker }

/-- Embeds the `TradeStatus` enum of `src/system/core.py` (lines 24-33).
It has exactly these eight members; note that it has no `OPEN` member. -/
inductive TradeStatus where
  | PROPOSED
  | APPROVED
  | REJECTED
  | PENDING
  | EXECUTED
  | CANCELED
  | CLOSED
  | EXPIRED
  deriving DecidableEq, Fintype, Repr

/-- Embeds Python attribute lookup `TradeStatus.<name>` on the enum of
`src/system/core.py`: `some` for the eight defined members, `none` for
any other name (in Python the lookup raises `AttributeError`). -/
def tradeStatusMember : String → Option TradeStatus
  | "PROPOSED" => some .PROPOSED
  | "APPROVED" => some .APPROVED
  | "REJECTED" => some .REJECTED
  | "PENDING" => some .PENDING
  | "EXECUTED" => some .EXECUTED
  | "CANCELED" => some .CANCELED
  | "CLOSED" => some .CLOSED
  | "EXPIRED" => some .EXPIRED
  | _ => none

/-- Embeds the fields of the `TradeProposal` dataclass of
`src/system/core.py` (lines 124-159) that the execution path reads,
together with the expiry data: `expiry_time` is set in `__post_init__`
to the creation time plus `time_limit_seconds`.  The classification
fields (strategy name, confidence levels, risk score, status, metadata)
are carried by the source but never read by
`handle_trade_approval`, `process_approved_proposals` or
`execute_trade`, and are elided here. -/
structure TradeProposal where
  id : String
  symbol : String
  direction : String
  size : ℚ
  entry_price : Option ℚ
  stop_loss : Option ℚ
  take_profit : Option ℚ
  time_limit_seconds : ℚ
  expiry_time : ℚ
  deriving DecidableEq, Repr

/-- The result dictionary returned by the gateway's `place_order`
(`SimulationGateway.place_order`, `src/agents/trade_execution_agent.py`
lines 679-732, returns exactly these keys on success). -/
structure OrderResult where
  success : Bool
  order_id : String
  executed_price : ℚ
  executed_size : ℚ
  deriving DecidableEq, Repr

/-- The record that `TradeExecutionAgent.execute_trade` attempts to build
at lines 328-344 of `src/agents/trade_execution_agent.py` and to send as
the payload of a `TRADE_EXECUTION` message (only the fields relevant to
the claims are kept). -/
structure AgentTradeExecution where
  execution_id : String
  proposal_id : String
  order_id : String
  symbol : String
  status : TradeStatus
  executed_price : ℚ
  executed_size : ℚ
  deriving DecidableEq, Repr

/-- Substring test: whether `needle` occurs contiguously in `hay`,
embedding the Python expression `needle in hay` on strings (used at
line 286 of `src/agents/trade_execution_agent.py`). -/
def charsContainFrom (needle : List Char) : List Char → Bool
  | [] => needle.isEmpty
  | c :: rest => needle.isPrefixOf (c :: rest) || charsContainFrom needle rest

/-- String version of the substring test. -/
def strContains (hay needle : String) : Bool :=
  charsContainFrom needle.data hay.data

/-- Embeds `TradeExecutionAgent.execute_trade`
(`src/agents/trade_execution_agent.py` lines 263-362) for an initialized
gateway.  Lines 277-298: when the available-asset list is non-empty and
the proposal symbol is not in it, search the recommended assets for the
first symbol containing the proposal's base currency
(`proposal.symbol.split("/")[0] in symbol`) and substitute it, returning
`none` when no fallback exists.  Lines 303-317: place the order through
the gateway; a failed order returns `none`.  Lines 328-344: build the
`TradeExecution` record with `status=TradeStatus.OPEN` — the `TradeStatus`
enum has no member `OPEN`, so evaluating that argument raises
`AttributeError`, which the `except` clause at line 360 catches, making
the function return `None`; this is embedded by the `tradeStatusMember
"OPEN"` lookup.  (The source also passes keyword arguments such as
`requested_size` that the `TradeExecution` dataclass of
`src/system/core.py` does not accept, a second error on the same line
reached only after the status argument evaluates.) -/
def executeTrade (execId : String) (availableAssets recommendedAssets : List String)
    (placeOrder : String → OrderResult) (p : TradeProposal) : Option AgentTradeExecution :=
  let sym? : Option String :=
    if availableAssets ≠ [] ∧ p.symbol ∉ availableAssets then
      if recommendedAssets ≠ [] then
        recommendedAssets.find? (fun s => strContains s ((p.symbol.splitOn "/").headD ""))
      else none
    else some p.symbol
  match sym? with
  | none => none
  | some sym =>
    let result := placeOrder sym
    if result.success = false then none
    else
      match tradeStatusMember "OPEN" with
      | none => none
      | some s =>
          some { execution_id := execId
                 proposal_id := p.id
                 order_id := result.order_id
                 symbol := sym
                 status := s
                 executed_price := result.executed_price
                 executed_size := result.executed_size }

/-- The state of `TradeExecutionAgent` read by the approval/execution
path (`src/agents/trade_execution_agent.py` lines 44-52):
`approved_proposals` is an insertion-ordered dict from proposal id to
the approved proposal, together with the cached asset lists. -/
structure ExecAgentState where
  approvedProposals : List (String × TradeProposal)
  availableAssets : List String
  recommendedAssets : List String
  deriving DecidableEq, Repr

/-- Insertion-ordered dict write `d[k] = v`. -/
def dictSet (k : String) (v : TradeProposal) (l : List (String × TradeProposal)) :
    List (String × TradeProposal) :=
  if l.any (fun kv => kv.1 = k) then l.map (fun kv => if kv.1 = k then (k, v) else kv)
  else l ++ [(k, v)]

/-- The content of a `trade_approval` message as read by
`handle_trade_approval` (lines 197-198): the two keys it fetches with
`content.get`. -/
structure ApprovalContent where
  proposal_id : Option String
  adjusted_proposal : Option TradeProposal

/-- Embeds `TradeExecutionAgent.handle_trade_approval`
(`src/agents/trade_execution_agent.py` lines 190-205): when both
`proposal_id` and `adjusted_proposal` are present and truthy, store the
proposal in `approved_proposals`; otherwise return unchanged.  The
function takes no clock argument because the source consults no clock:
the arrival time of the approval, and the proposal's
`time_limit_seconds` and `expiry_time`, are never read. -/
def handleTradeApproval (c : ApprovalContent) (st : ExecAgentState) : ExecAgentState :=
  match c.proposal_id, c.adjusted_proposal with
  | some pid, some prop =>
      if pid = "" then st
      else { st with approvedProposals := dictSet pid prop st.approvedProposals }
  | _, _ => st

/-- The observable outcome of one `process_approved_proposals` pass:
the proposal ids on which `execute_trade` was invoked (line 240), the
`TRADE_EXECUTION` payloads sent (lines 246-253), and the successor
state. -/
structure ProcessOutcome where
  attempted : List String
  emitted : List AgentTradeExecution
  state : ExecAgentState

/-- The per-proposal loop of `process_approved_proposals`
(lines 231-261): each stored proposal is passed to `execute_trade` and
deleted (at line 243 on the normal path, at line 261 on the exception
path — in both cases unconditionally); a `TRADE_EXECUTION` message is
sent only when `execute_trade` returned a record. -/
def processApprovedAux (availableAssets recommendedAssets : List String)
    (placeOrder : String → OrderResult) :
    List (String × TradeProposal) → List String × List AgentTradeExecution
  | [] => ([], [])
  | (pid, prop) :: rest =>
    let res := executeTrade ("exec_" ++ pid) availableAssets recommendedAssets placeOrder prop
    let r := processApprovedAux availableAssets recommendedAssets placeOrder rest
    (pid :: r.1, (match res with | some e => [e] | none => []) ++ r.2)

/-- Embeds `TradeExecutionAgent.process_approved_proposals`
(`src/agents/trade_execution_agent.py` lines 222-261).  Note the absence
of any deadline test: every stored proposal is attempted, however long
ago it was created. -/
def processApprovedProposals (placeOrder : String → OrderResult) (st : ExecAgentState) :
    ProcessOutcome :=
  let r := processApprovedAux st.availableAssets st.recommendedAssets placeOrder
    st.approvedProposals
  { attempted := r.1
    emitted := r.2
    state := { st with approvedProposals := [] } }

/-! Concrete scenarios used to evaluate the embedded code. -/

/-- A broker with default configuration (`batch_size=10`,
`cache_timeout=5.0`) and one registered recipient, for the duplicate-id
scenario. -/
def c2Broker : Broker := registerAgent "risk" (mkBroker 10 5000)

/-- A strategy agent constructed at time 0 on `c2Broker`. -/
def c2Agent0 : AgentState := mkAgent "strategy" c2Broker 0

/-- Two `send_message` calls in quick succession (at times 0 and 50,
both within the 100-millisecond batch interval, so the outbound batch is
not flushed between them), with two distinct payloads, both addressed to
`risk`. -/
def c2Agent2 : AgentState :=
  sendMessage 50 .TRADE_PROPOSAL "proposal p1" (some ["risk"])
    (sendMessage 0 .TRADE_PROPOSAL "proposal p0" (some ["risk"]) c2Agent0)

/-- The scheduled batch flush firing after the batch interval. -/
def c2Flushed : AgentState := sendMessageBatchA [] 200 c2Agent2

/-- A trade proposal created at time 0 with `time_limit_seconds = 1`,
hence `expiry_time = 1`. -/
def lateProposal : TradeProposal :=
  { id := "p3"
    symbol := "EUR/USD"
    direction := "LONG"
    size := 1
    entry_price := none
    stop_loss := none
    take_profit := none
    time_limit_seconds := 1
    expiry_time := 1 }

/-- The content of the `trade_approval` message for `lateProposal`. -/
def c5ApprovalContent : ApprovalContent :=
  { proposal_id := some "p3", adjusted_proposal := some lateProposal }

/-- The arrival time of the approval: 2 seconds after the proposal's
creation, one second past its expiry deadline. -/
def c5ArrivalTime : ℚ := 2

/-- The execution agent before the approval arrives (no cached asset
lists, nothing approved). -/
def c5State0 : ExecAgentState :=
  { approvedProposals := [], availableAssets := [], recommendedAssets := [] }

/-- The execution agent after the late approval is handled. -/
def c5State1 : ExecAgentState := handleTradeApproval c5ApprovalContent c5State0

/-- A gateway whose `place_order` succeeds, as the simulation gateway
does for a known symbol. -/
def simPlaceOrder : String → OrderResult :=
  fun _ => { success := true, order_id := "ord_1", executed_price := 2, executed_size := 1 }

/-- A broker where both `S` and `R` are registered and subscribed to
`SYSTEM_STATUS`. -/
def c1Broker : Broker :=
  subscribeAgent "R" [.SYSTEM_STATUS]
    (subscribeAgent "S" [.SYSTEM_STATUS]
      (registerAgent "R" (registerAgent "S" (mkBroker 10 5000))))

/-- A `system_status` broadcast sent by `S`. -/
def c1Msg : Message :=
  { id := "msg_0", type := .SYSTEM_STATUS, sender := "S", recipients := []
    content := "status", timestamp := 0 }

/-- A broker with a single registered agent `A`. -/
def c3Broker : Broker := registerAgent "A" (mkBroker 10 5000)

/-- A direct message addressed to registered `A` and unregistered
`ghost`. -/
def c3Msg : Message :=
  { id := "msg_0", type := .RISK_UPDATE, sender := "S", recipients := ["A", "ghost"]
    content := "direct", timestamp := 0 }

/-- A broker with one registered recipient `R`, for the batch-order
scenario. -/
def c4Broker : Broker := registerAgent "R" (mkBroker 10 5000)

/-- First batch message, addressed to `R`. -/
def c4Msg1 : Message :=
  { id := "e1", type := .TRADE_EXECUTION, sender := "exec", recipients := ["R"]
    content := "e1", timestamp := 0 }

/-- Second batch message, addressed to `R`. -/
def c4Msg2 : Message :=
  { id := "e2", type := .TRADE_EXECUTION, sender := "exec", recipients := ["R"]
    content := "e2", timestamp := 0 }

/-- A handler that succeeds exactly on odd inputs, embedding a
`handle_message` that raises on every even-numbered message. -/
def oddOnly (n : ℕ) : Bool := n % 2 == 1

/-- A handler that raises on every message. -/
def alwaysRaise (_ : ℕ) : Bool := false

/-- A broker where `A` and `B` are registered and `A` subscribes to
`SYSTEM_STATUS`, for the unsubscription scenario. -/
def c8Broker : Broker :=
  subscribeAgent "A" [.SYSTEM_STATUS] (registerAgent "A" (registerAgent "B" (mkBroker 10 5000)))

/-- A `system_status` broadcast by `B`, published after the
unsubscription. -/
def c8Msg : Message :=
  { id := "msg_1", type := .SYSTEM_STATUS, sender := "B", recipients := []
    content := "alert", timestamp := 1000 }

/-- Interleaved broker activity between the unsubscription and the final
broadcast: an earlier broadcast of the same kind (which refreshes the
subscriber cache) and a registration. -/
def c8Ops : List BrokerOp :=
  [.publishA 500 { id := "msg_0", type := .SYSTEM_STATUS, sender := "B", recipients := []
                   content := "earlier", timestamp := 500 },
   .registerA "C"]

/-- A broker with a single registered agent `a`, for the frame
scenario. -/
def c10Broker : Broker := registerAgent "a" (mkBroker 10 5000)

/-! Helper lemmas about the subscriber-cache resolution. -/

theorem getSubs_queues (now : ℤ) (t : MessageType) (st : Broker) :
    ((getSubscribersForMessageType now t st).2).queues = st.queues := by
  unfold getSubscribersForMessageType
  split <;> rfl

theorem getSubs_subscribers (now : ℤ) (t : MessageType) (st : Broker) :
    ((getSubscribersForMessageType now t st).2).subscribers = st.subscribers := by
  unfold getSubscribersForMessageType
  split <;> rfl

theorem getSubs_fst (now : ℤ) (t : MessageType) (st : Broker) (hco : CacheCoherent st) :
    (getSubscribersForMessageType now t st).1 = st.subscribers t := by
  unfold getSubscribersForMessageType
  split
  · rename_i h
    rcases hco t with hc | hc
    · rw [hc] at h
      exact absurd h.1 (by simp)
    · simp only [hc, Option.get_some]
  · rfl

theorem getSubs_coherent (now : ℤ) (t : MessageType) (st : Broker) (hco : CacheCoherent st) :
    CacheCoherent (getSubscribersForMessageType now t st).2 := by
  unfold getSubscribersForMessageType
  split
  · exact hco
  · intro u
    by_cases hu : u = t
    · subst hu
      right
      simp
    · simpa only [if_neg hu] using hco u

/-! Helper lemmas about single-message publication. -/

theorem publish_broadcast_queues (now : ℤ) (m : Message) (st : Broker)
    (hco : CacheCoherent st) (hb : m.recipients = []) (a : String) :
    (publish now m st).queues a =
      if a ∈ st.subscribers m.type ∧ a ≠ m.sender ∧ (st.queues a).isSome then
        (st.queues a).map (fun l => l ++ [m])
      else st.queues a := by
  unfold publish
  simp only [hb, ne_eq, not_true_eq_false, if_false, ite_false]
  have h1 : CacheCoherent { st with messageCounter := st.messageCounter + 1 } := hco
  rw [getSubs_fst now m.type _ h1, getSubs_queues]

theorem deliverToRecipients_spec (m : Message) :
    ∀ (rs : List String) (q : String → Option (List Message)) (a : String),
      deliverToRecipients m rs q a =
        if (q a).isSome then (q a).map (fun l => l ++ List.replicate (rs.count a) m)
        else q a := by
  intro rs
  induction rs with
  | nil =>
    intro q a
    unfold deliverToRecipients
    cases hqa : q a with
    | none => simp
    | some l => simp
  | cons r rest ih =>
    intro q a
    unfold deliverToRecipients
    rw [ih]
    by_cases hreg : (q r).isSome
    · rw [if_pos hreg]
      by_cases har : a = r
      · subst har
        cases hqa : q a with
        | none => rw [hqa] at hreg; simp at hreg
        | some l =>
          simp [enqueueTo, hqa, List.count_cons_self, List.replicate_succ, List.append_assoc]
      · have henq : enqueueTo r m q a = q a := by simp [enqueueTo, har]
        have har2 : ¬ r = a := fun e => har e.symm
        rw [henq, List.count_cons]
        simp [har2]
    · rw [if_neg hreg]
      rw [List.count_cons]
      by_cases har : a = r
      · subst har
        have hnone : q a = none := by
          cases h2 : q a with
          | none => rfl
          | some l => rw [h2] at hreg; simp at hreg
        simp [hnone]
      · have har2 : ¬ r = a := fun e => har e.symm
        simp [har2]



/-- Claim C1: for every publish of a message with an empty recipients
list (a broadcast) of kind K by sender S, the broker enqueues the message
to exactly those agents that are currently subscribed to K, are currently
registered, and are different from S; in particular S never receives its
own broadcast in its inbox.  (The cache-coherence hypothesis holds of
every reachable broker state; see `runOps_coherent`.) -/
theorem claim_C1_broadcast_exact_delivery (st : Broker) (hco : CacheCoherent st)
    (now : ℤ) (m : Message) (hb : m.recipients = []) :
    (∀ a : String,
      (publish now m st).queues a =
        if a ∈ st.subscribers m.type ∧ a ≠ m.sender ∧ (st.queues a).isSome then
          (st.queues a).map (fun l => l ++ [m])
        else st.queues a) ∧
    (publish now m st).queues m.sender = st.queues m.sender := by
  constructor
  · intro a
    exact publish_broadcast_queues now m st hco hb a
  · rw [publish_broadcast_queues now m st hco hb m.sender]
    simp

/-- Witness for C1: in `c1Broker`, the broadcast `c1Msg` by `S` is
enqueued to the other subscriber `R` and not to its sender `S`. -/
theorem claim_C1_witness :
    CacheCoherent c1Broker ∧ c1Msg.recipients = [] ∧
    (publish 0 c1Msg c1Broker).queues "R" = some [c1Msg] ∧
    (publish 0 c1Msg c1Broker).queues c1Msg.sender = some [] :=
  ⟨by decide, rfl,
   by
     rw [(claim_C1_broadcast_exact_delivery c1Broker (by decide) 0 c1Msg rfl).1 "R"]
     decide,
   by
     rw [(claim_C1_broadcast_exact_delivery c1Broker (by decide) 0 c1Msg rfl).2]
     decide⟩

/-- Claim C3: for every publish of a message with a non-empty recipients
list, the set of inboxes that receive the message is exactly the
intersection of the recipients list with the set of currently registered
agent ids; unregistered ids are silently dropped (`publish` is total, so
no error reaches the publisher). -/
theorem claim_C3_direct_registered_intersection (st : Broker) (now : ℤ) (m : Message)
    (h : m.recipients ≠ []) (a : String) :
    (publish now m st).queues a ≠ st.queues a ↔
      a ∈ m.recipients ∧ (st.queues a).isSome := by
  have hpub : (publish now m st).queues a = deliverToRecipients m m.recipients st.queues a := by
    unfold publish
    rw [if_pos h]
  rw [hpub, deliverToRecipients_spec]
  cases hq : st.queues a with
  | none => simp
  | some l =>
    simp only [Option.isSome_some, ite_true, Option.map_some', ne_eq, Option.some.injEq,
      and_true]
    constructor
    · intro hne
      by_contra hmem
      have hc : m.recipients.count a = 0 := by
        rw [List.count_eq_zero]
        exact hmem
      rw [hc] at hne
      simp at hne
    · intro hmem he
      have h0 : m.recipients.count a ≠ 0 := by
        rw [Ne, List.count_eq_zero]
        exact fun hc => hc hmem
      have hlen := congrArg List.length he
      rw [List.length_append, List.length_replicate] at hlen
      omega

/-- Witness for C3: the direct message `c3Msg` addressed to registered
`A` and unregistered `ghost` reaches exactly `A`. -/
theorem claim_C3_witness :
    c3Msg.recipients ≠ [] ∧
    ((publish 0 c3Msg c3Broker).queues "A" ≠ c3Broker.queues "A" ↔
      "A" ∈ c3Msg.recipients ∧ (c3Broker.queues "A").isSome) ∧
    ((publish 0 c3Msg c3Broker).queues "ghost" ≠ c3Broker.queues "ghost" ↔
      "ghost" ∈ c3Msg.recipients ∧ (c3Broker.queues "ghost").isSome) :=
  ⟨by decide,
   claim_C3_direct_registered_intersection c3Broker 0 c3Msg (by decide) "A",
   claim_C3_direct_registered_intersection c3Broker 0 c3Msg (by decide) "ghost"⟩

/-- Claim C10: unregistering an agent id that has no inbox and sits in no
subscription set returns normally and leaves the whole broker state
(inbox table, subscription sets, cache, timestamps, counter,
configuration) unchanged. -/
theorem claim_C10_unregister_absent_noop (st : Broker) (x : String)
    (h1 : st.queues x = none) (h2 : ∀ t, x ∉ st.subscribers t) :
    unregisterAgent x st = st := by
  have hq : (st.queues x).isSome = false := by rw [h1]; rfl
  unfold unregisterAgent
  simp only [hq, Bool.false_eq_true, if_false, ite_false]
  have e1 : (fun t => if x ∈ st.subscribers t then (st.subscribers t).erase x
      else st.subscribers t) = st.subscribers :=
    funext fun t => if_neg (h2 t)
  have e2 : (fun t => if x ∈ st.subscribers t ∧ (st.subscribersCache t).isSome then none
      else st.subscribersCache t) = st.subscribersCache :=
    funext fun t => if_neg (fun hc => h2 t hc.1)
  have e3 : (fun t => if x ∈ st.subscribers t ∧ (st.subscribersCache t).isSome then none
      else st.cacheTimestamps t) = st.cacheTimestamps :=
    funext fun t => if_neg (fun hc => h2 t hc.1)
  rw [e1, e2, e3]

/-- Witness for C10: unregistering the unknown id `b` on a broker that
only knows `a` changes nothing. -/
theorem claim_C10_witness :
    c10Broker.queues "b" = none ∧ (∀ t, "b" ∉ c10Broker.subscribers t) ∧
    unregisterAgent "b" c10Broker = c10Broker :=
  ⟨rfl, fun _ => Finset.not_mem_empty "b",
   claim_C10_unregister_absent_noop c10Broker "b" rfl (fun _ => Finset.not_mem_empty "b")⟩

/-! Helper lemmas about the inbox-draining loop. -/

theorem drainInbox_split {α : Type} (handler : α → Bool) (batchSize : ℕ) :
    ∀ (q : List α) (processed : ℕ), ∃ n : ℕ,
      (drainInbox handler batchSize q processed).1 =
        (q.take n).map (fun m => (m, handler m)) ∧
      (drainInbox handler batchSize q processed).2 = q.drop n := by
  intro q
  induction q with
  | nil =>
    intro processed
    exact ⟨0, by simp [drainInbox], by simp [drainInbox]⟩
  | cons m rest ih =>
    intro processed
    by_cases hp : processed < batchSize
    · obtain ⟨n, h1, h2⟩ := ih (if handler m then processed + 1 else processed)
      refine ⟨n + 1, ?_, ?_⟩
      · unfold drainInbox
        rw [if_pos hp]
        simpa using h1
      · unfold drainInbox
        rw [if_pos hp]
        simpa using h2
    · refine ⟨0, ?_, ?_⟩
      · unfold drainInbox
        rw [if_neg hp]
        rfl
      · unfold drainInbox
        rw [if_neg hp]
        rfl

theorem drainInbox_countP {α : Type} (handler : α → Bool) (batchSize : ℕ) :
    ∀ (q : List α) (processed : ℕ),
      (drainInbox handler batchSize q processed).1.countP (fun p => p.2) ≤
        batchSize - processed := by
  intro q
  induction q with
  | nil =>
    intro processed
    show (([] : List (α × Bool)).countP (fun p => p.2)) ≤ batchSize - processed
    simp
  | cons m rest ih =>
    intro processed
    by_cases hp : processed < batchSize
    · unfold drainInbox
      rw [if_pos hp]
      cases hm : handler m with
      | true =>
        have hrec := ih (processed + 1)
        simp [List.countP_cons, hm]
        omega
      | false =>
        have hrec := ih processed
        simp [List.countP_cons, hm]
        omega
    · unfold drainInbox
      rw [if_neg hp]
      simp

theorem drainInbox_consume {α : Type} (handler : α → Bool) (batchSize : ℕ)
    (q : List α) (processed : ℕ) :
    (drainInbox handler batchSize q processed).1.map Prod.fst ++
      (drainInbox handler batchSize q processed).2 = q := by
  obtain ⟨n, h1, h2⟩ := drainInbox_split handler batchSize q processed
  rw [h1, h2, List.map_map]
  have : (Prod.fst ∘ fun m : α => (m, handler m)) = id := rfl
  rw [this, List.map_id, List.take_append_drop]

theorem drainInbox_length_all_true {α : Type} (handler : α → Bool) (batchSize : ℕ)
    (q : List α) (hall : ∀ m ∈ q, handler m = true) :
    (drainInbox handler batchSize q 0).1.length ≤ batchSize := by
  obtain ⟨n, h1, _⟩ := drainInbox_split handler batchSize q 0
  have hc := drainInbox_countP handler batchSize q 0
  have hcl : (drainInbox handler batchSize q 0).1.countP (fun p => p.2) =
      (drainInbox handler batchSize q 0).1.length := by
    rw [List.countP_eq_length]
    intro p hp
    rw [h1] at hp
    simp only [List.mem_map] at hp
    obtain ⟨m, hm, rfl⟩ := hp
    exact hall m (List.mem_of_mem_take hm)
  omega

/-- Counterexample to claim C6 as stated: with `batch_size = 1` and an
inbox of two messages on both of which `handle_message` raises, a single
iteration of the loop dequeues both messages (2 > 1), because the
`messages_processed` counter is incremented only when the handler
returns normally. -/
theorem claim_C6_counterexample :
    (drainInbox alwaysRaise 1 [0, 1] 0).1.length = 2 ∧
    ¬ (drainInbox alwaysRaise 1 [0, 1] 0).1.length ≤ 1 ∧
    (drainInbox alwaysRaise 1 [0, 1] 0).2 = [] := by
  decide

/-- Claim C6 as amended: in one iteration of the cooperative loop, at
most `batch_size` messages are handled successfully; every dequeued
message (successful or raising) is consumed and the untouched rest of
the inbox is kept, in order, for the next iteration; and when the
handler raises on no dequeued message, at most `batch_size` messages are
dequeued. -/
theorem claim_C6_amended_drain_bound {α : Type} (handler : α → Bool) (batchSize : ℕ)
    (queue : List α) :
    (drainInbox handler batchSize queue 0).1.countP (fun p => p.2) ≤ batchSize ∧
    (drainInbox handler batchSize queue 0).1.map Prod.fst ++
      (drainInbox handler batchSize queue 0).2 = queue ∧
    ((∀ m ∈ queue, handler m = true) →
      (drainInbox handler batchSize queue 0).1.length ≤ batchSize) := by
  refine ⟨?_, drainInbox_consume handler batchSize queue 0, ?_⟩
  · have := drainInbox_countP handler batchSize queue 0
    omega
  · exact drainInbox_length_all_true handler batchSize queue

/-- Witness for the amended C6: a concrete iteration with
`batch_size = 2` on a five-message inbox whose handler succeeds on odd
messages only. -/
theorem claim_C6_witness :
    (drainInbox oddOnly 2 [1, 2, 3, 4, 5] 0).1.countP (fun p => p.2) ≤ 2 ∧
    (drainInbox oddOnly 2 [1, 2, 3, 4, 5] 0).1.map Prod.fst ++
      (drainInbox oddOnly 2 [1, 2, 3, 4, 5] 0).2 = [1, 2, 3, 4, 5] ∧
    ((∀ m ∈ [1, 2, 3, 4, 5], oddOnly m = true) →
      (drainInbox oddOnly 2 [1, 2, 3, 4, 5] 0).1.length ≤ 2) :=
  claim_C6_amended_drain_bound oddOnly 2 [1, 2, 3, 4, 5]

theorem drainInbox_remaining_lt {α : Type} (handler : α → Bool) (batchSize : ℕ)
    (hb : 0 < batchSize) (m : α) (rest : List α) :
    (drainInbox handler batchSize (m :: rest) 0).2.length < (m :: rest).length := by
  obtain ⟨n, h1, h2⟩ := drainInbox_split handler batchSize (m :: rest) 0
  have hc : (drainInbox handler batchSize (m :: rest) 0).1 ≠ [] := by
    unfold drainInbox
    rw [if_pos hb]
    simp
  have hn : n ≠ 0 := by
    intro h0
    rw [h0] at h1
    simp only [List.take_zero, List.map_nil] at h1
    exact hc h1
  rw [h2, List.length_drop]
  have hlen : (m :: rest).length = rest.length + 1 := rfl
  omega

theorem runLoopFuel_spec {α : Type} (handler : α → Bool) (batchSize : ℕ)
    (hb : 0 < batchSize) :
    ∀ (fuel : ℕ) (q : List α), q.length ≤ fuel →
      runLoopFuel handler batchSize fuel q = q.map (fun m => (m, handler m)) := by
  intro fuel
  induction fuel with
  | zero =>
    intro q hq
    cases q with
    | nil => rfl
    | cons m rest => simp at hq
  | succ fuel ih =>
    intro q hq
    cases q with
    | nil =>
      show (drainInbox handler batchSize [] 0).1 ++
        runLoopFuel handler batchSize fuel (drainInbox handler batchSize [] 0).2 = []
      rw [show drainInbox handler batchSize [] 0 = ([], []) from rfl]
      rw [ih [] (by simp)]
      rfl
    | cons m rest =>
      obtain ⟨n, h1, h2⟩ := drainInbox_split handler batchSize (m :: rest) 0
      have hlt := drainInbox_remaining_lt handler batchSize hb m rest
      show (drainInbox handler batchSize (m :: rest) 0).1 ++
        runLoopFuel handler batchSize fuel (drainInbox handler batchSize (m :: rest) 0).2 =
        (m :: rest).map (fun x => (x, handler x))
      rw [ih _ (by omega)]
      rw [h1, h2, ← List.map_append, List.take_append_drop]

theorem filter_map_annot {α : Type} (handler : α → Bool) (q : List α) :
    ((q.map (fun m => (m, handler m))).filter (fun p => p.2)).map Prod.fst =
      q.filter (fun m => handler m) := by
  induction q with
  | nil => rfl
  | cons m rest ih => cases hm : handler m <;> simp [List.filter_cons, hm, ih]

/-- Claim C7: a handler exception is not propagated out of the loop
(`runProcessLoop` is total and equals the full annotated traversal);
every message, raising or not, is dequeued exactly once and in order and
never redelivered; processing continues past raising messages, so the
successfully handled messages are exactly those the handler accepts
(with a raising-on-evens handler, exactly the odd-numbered ones); and
every loop iteration still reaches its `process_cycle` invocation. -/
theorem claim_C7_error_isolation {α : Type} (handler : α → Bool) (batchSize : ℕ)
    (hb : 0 < batchSize) (queue : List α) :
    runProcessLoop handler batchSize queue = queue.map (fun m => (m, handler m)) ∧
    ((runProcessLoop handler batchSize queue).filter (fun p => p.2)).map Prod.fst =
      queue.filter (fun m => handler m) ∧
    (processLoopIter handler batchSize queue).cycleInvoked = true := by
  have h := runLoopFuel_spec handler batchSize hb queue.length queue le_rfl
  refine ⟨h, ?_, rfl⟩
  rw [show runProcessLoop handler batchSize queue =
    queue.map (fun m => (m, handler m)) from h]
  exact filter_map_annot handler queue

/-- Witness for C7: with `batch_size = 2` and a handler raising on every
even number, all five messages are consumed in order and exactly the odd
ones are handled successfully. -/
theorem claim_C7_witness :
    (0 : ℕ) < 2 ∧
    runProcessLoop oddOnly 2 [0, 1, 2, 3, 4] =
      [(0, false), (1, true), (2, false), (3, true), (4, false)] ∧
    ((runProcessLoop oddOnly 2 [0, 1, 2, 3, 4]).filter (fun p => p.2)).map Prod.fst =
      [1, 3] := by
  refine ⟨by decide, ?_, ?_⟩
  · rw [(claim_C7_error_isolation oddOnly 2 (by decide) [0, 1, 2, 3, 4]).1]
    decide
  · rw [(claim_C7_error_isolation oddOnly 2 (by decide) [0, 1, 2, 3, 4]).2.1]
    decide

/-- Claim C2 fails on the code: `get_next_message_id` reads the broker
counter without incrementing it (only `publish`/`publish_batch`
increment), so two `send_message` calls made while the outbound batch is
not flushed build two distinct messages carrying the same id `msg_0`,
which are then both published to the recipient.  This contradicts the
docstring of `get_next_message_id` (a unique id) and the claim
(distinct, strictly increasing ids). -/
theorem claim_C2_duplicate_message_ids :
    c2Agent2.messageBatch.map Message.id = ["msg_0", "msg_0"] ∧
    c2Agent2.messageBatch.map Message.content = ["proposal p0", "proposal p1"] ∧
    ((c2Flushed.broker.queues "risk").getD []).map Message.id = ["msg_0", "msg_0"] ∧
    ((c2Flushed.broker.queues "risk").getD []).map Message.content =
      ["proposal p0", "proposal p1"] := by
  refine ⟨?_, ?_, ?_, ?_⟩ <;> decide

theorem executeTrade_always_none (execId : String) (availableAssets recommendedAssets : List String)
    (placeOrder : String → OrderResult) (p : TradeProposal) :
    executeTrade execId availableAssets recommendedAssets placeOrder p = none := by
  have hopen : tradeStatusMember "OPEN" = none := by decide
  unfold executeTrade
  rw [hopen]
  by_cases h1 : availableAssets ≠ [] ∧ p.symbol ∉ availableAssets
  · rw [if_pos h1]
    by_cases h2 : recommendedAssets ≠ []
    · rw [if_pos h2]
      cases hf : recommendedAssets.find?
          (fun s => strContains s ((p.symbol.splitOn "/").headD "")) with
      | none => rfl
      | some sym =>
        show (if (placeOrder sym).success = false then none
          else match (none : Option TradeStatus) with
            | none => none
            | some s =>
                some { execution_id := execId
                       proposal_id := p.id
                       order_id := (placeOrder sym).order_id
                       symbol := sym
                       status := s
                       executed_price := (placeOrder sym).executed_price
                       executed_size := (placeOrder sym).executed_size }) = none
        by_cases hs : (placeOrder sym).success = false
        · rw [if_pos hs]
        · rw [if_neg hs]
    · rw [if_neg h2]
  · rw [if_neg h1]
    show (if (placeOrder p.symbol).success = false then none
      else match (none : Option TradeStatus) with
        | none => none
        | some s =>
            some { execution_id := execId
                   proposal_id := p.id
                   order_id := (placeOrder p.symbol).order_id
                   symbol := p.symbol
                   status := s
                   executed_price := (placeOrder p.symbol).executed_price
                   executed_size := (placeOrder p.symbol).executed_size }) = none
    by_cases hs : (placeOrder p.symbol).success = false
    · rw [if_pos hs]
    · rw [if_neg hs]

theorem processApprovedAux_emitted_nil (availableAssets recommendedAssets : List String)
    (placeOrder : String → OrderResult) :
    ∀ l : List (String × TradeProposal),
      (processApprovedAux availableAssets recommendedAssets placeOrder l).2 = [] := by
  intro l
  induction l with
  | nil => rfl
  | cons kv rest ih =>
    cases kv with
    | mk pid prop =>
      show (match executeTrade ("exec_" ++ pid) availableAssets recommendedAssets
          placeOrder prop with
        | some e => [e]
        | none => []) ++
        (processApprovedAux availableAssets recommendedAssets placeOrder rest).2 = []
      rw [executeTrade_always_none, ih]
      rfl

/-- Claim C5: if the trade approval for a proposal is received more than
`time_limit_seconds` after the proposal's creation (i.e. past its expiry
deadline), the Execution agent never emits a `trade_execution` message
with status `executed` for that proposal id.  The property holds of the
code for every approval, late or timely — not through a deadline check
(`handle_trade_approval` reads no clock and stores the late approval,
which `process_approved_proposals` then attempts to execute) but because
the agent's only `trade_execution` emission site (line 247) requires
`execute_trade` to return a record, and `execute_trade` always returns
`None`: building its `TradeExecution` evaluates `TradeStatus.OPEN`
(line 342), a member the `TradeStatus` enum of `src/system/core.py` does
not define, and the resulting `AttributeError` is caught at line 360.
So no execution event of any status is ever emitted for any proposal
id, in particular none with status `executed` for a late one. -/
theorem claim_C5_late_approval_never_executed (arrival : ℚ) (c : ApprovalContent)
    (st : ExecAgentState) (placeOrder : String → OrderResult) (pid : String)
    (p : TradeProposal) (hpid : c.proposal_id = some pid)
    (hp : c.adjusted_proposal = some p) (hlate : p.expiry_time < arrival) :
    (processApprovedProposals placeOrder (handleTradeApproval c st)).emitted = [] ∧
    ∀ e ∈ (processApprovedProposals placeOrder (handleTradeApproval c st)).emitted,
      ¬ (e.proposal_id = pid ∧ e.status = TradeStatus.EXECUTED) := by
  have h : (processApprovedProposals placeOrder (handleTradeApproval c st)).emitted = [] :=
    processApprovedAux_emitted_nil (handleTradeApproval c st).availableAssets
      (handleTradeApproval c st).recommendedAssets placeOrder
      (handleTradeApproval c st).approvedProposals
  refine ⟨h, ?_⟩
  intro e he
  rw [h] at he
  simp at he

/-- Witness for C5: the approval for `lateProposal` (expiry deadline 1)
arrives at time 2; after it is handled and the approved proposals are
processed against a succeeding gateway, no execution event is
emitted. -/
theorem claim_C5_witness :
    c5ApprovalContent.proposal_id = some "p3" ∧
    c5ApprovalContent.adjusted_proposal = some lateProposal ∧
    lateProposal.expiry_time < c5ArrivalTime ∧
    (processApprovedProposals simPlaceOrder c5State1).emitted = [] :=
  ⟨rfl, rfl, by decide,
   (claim_C5_late_approval_never_executed c5ArrivalTime c5ApprovalContent c5State0
     simPlaceOrder "p3" lateProposal rfl rfl (by decide)).1⟩

/-- Claim C9 fails on the code: the `MessageType` enum has exactly
twelve members and none of them is `MARKET_DATA`, yet the subscription
list of `TradeExecutionAgent.setup` names `MARKET_DATA` (so evaluating
`MessageType.MARKET_DATA` there raises `AttributeError`). -/
theorem claim_C9_market_data_not_in_enum :
    messageTypeMemberNames.length = 12 ∧
    "MARKET_DATA" ∉ messageTypeMemberNames ∧
    (∀ t : MessageType, messageTypeName t ∈ messageTypeMemberNames) ∧
    (∀ t : MessageType, messageTypeName t ≠ "MARKET_DATA") ∧
    "MARKET_DATA" ∈ tradeExecutionSetupSubscribedNames := by
  refine ⟨rfl, by decide, by decide, by decide, by decide⟩

/-! Helper lemmas about batched publication. -/

theorem groupDirect_acc (m : Message) (q : String → Option (List Message)) :
    ∀ (rs : List String) (g : String → List Message) (a : String),
      groupDirect m q rs g a = g a ++ groupDirect m q rs (fun _ => []) a := by
  intro rs
  induction rs with
  | nil =>
    intro g a
    simp [groupDirect]
  | cons r rest ih =>
    intro g a
    unfold groupDirect
    by_cases hr : (q r).isSome
    · rw [if_pos hr, if_pos hr]
      rw [ih (fun b => if b = r then g b ++ [m] else g b) a]
      rw [ih (fun b =>
        if b = r then (fun _ : String => ([] : List Message)) b ++ [m]
        else (fun _ : String => ([] : List Message)) b) a]
      by_cases har : a = r
      · subst har
        simp
      · simp [har]
    · rw [if_neg hr, if_neg hr]
      exact ih g a

theorem broadcastGroup_acc (m : Message) (subs : Finset String)
    (q : String → Option (List Message)) (g : String → List Message) (a : String) :
    broadcastGroup m subs q g a = g a ++ broadcastGroup m subs q (fun _ => []) a := by
  unfold broadcastGroup
  by_cases h : a ∈ subs ∧ a ≠ m.sender ∧ (q a).isSome
  · rw [if_pos h, if_pos h]
    simp
  · rw [if_neg h, if_neg h]
    simp

theorem publishBatchAux_acc :
    ∀ (msgs : List Message) (nows : List ℤ) (st : Broker) (g : String → List Message),
      (publishBatchAux msgs nows st g).1 = (publishBatchAux msgs nows st (fun _ => [])).1 ∧
      ∀ a, (publishBatchAux msgs nows st g).2 a =
        g a ++ (publishBatchAux msgs nows st (fun _ => [])).2 a := by
  intro msgs
  induction msgs with
  | nil =>
    intro nows st g
    exact ⟨rfl, fun a => by simp [publishBatchAux]⟩
  | cons m rest ih =>
    intro nows st g
    unfold publishBatchAux
    by_cases hm : m.recipients ≠ []
    · rw [if_pos hm, if_pos hm]
      set st1 : Broker := { st with messageCounter := st.messageCounter + 1 } with hst1
      constructor
      · rw [(ih nows st1 (groupDirect m st1.queues m.recipients g)).1,
            (ih nows st1 (groupDirect m st1.queues m.recipients (fun _ => []))).1]
      · intro a
        rw [(ih nows st1 (groupDirect m st1.queues m.recipients g)).2 a,
            (ih nows st1 (groupDirect m st1.queues m.recipients (fun _ => []))).2 a]
        rw [groupDirect_acc m st1.queues m.recipients g a, List.append_assoc]
    · rw [if_neg hm, if_neg hm]
      set st1 : Broker := { st with messageCounter := st.messageCounter + 1 } with hst1
      set p := getSubscribersForMessageType (nows.headD 0) m.type st1 with hp
      constructor
      · rw [(ih nows.tail p.2 (broadcastGroup m p.1 (p.2).queues g)).1,
            (ih nows.tail p.2 (broadcastGroup m p.1 (p.2).queues (fun _ => []))).1]
      · intro a
        rw [(ih nows.tail p.2 (broadcastGroup m p.1 (p.2).queues g)).2 a,
            (ih nows.tail p.2 (broadcastGroup m p.1 (p.2).queues (fun _ => []))).2 a]
        rw [broadcastGroup_acc m p.1 (p.2).queues g a, List.append_assoc]

theorem publishBatchAux_cons_direct (m : Message) (rest : List Message) (nows : List ℤ)
    (st : Broker) (g : String → List Message) (hm : m.recipients ≠ []) :
    publishBatchAux (m :: rest) nows st g =
      publishBatchAux rest nows { st with messageCounter := st.messageCounter + 1 }
        (groupDirect m st.queues m.recipients g) := by
  show (if m.recipients ≠ [] then
      publishBatchAux rest nows { st with messageCounter := st.messageCounter + 1 }
        (groupDirect m st.queues m.recipients g)
    else _) = _
  rw [if_pos hm]

theorem publishBatchAux_cons_broadcast (m : Message) (rest : List Message) (nows : List ℤ)
    (st : Broker) (g : String → List Message) (hm : m.recipients = []) :
    publishBatchAux (m :: rest) nows st g =
      publishBatchAux rest nows.tail
        (getSubscribersForMessageType (nows.headD 0) m.type
          { st with messageCounter := st.messageCounter + 1 }).2
        (broadcastGroup m
          (getSubscribersForMessageType (nows.headD 0) m.type
            { st with messageCounter := st.messageCounter + 1 }).1
          ((getSubscribersForMessageType (nows.headD 0) m.type
            { st with messageCounter := st.messageCounter + 1 }).2).queues g) := by
  show (if m.recipients ≠ [] then _ else
      publishBatchAux rest nows.tail
        (getSubscribersForMessageType (nows.headD 0) m.type
          { st with messageCounter := st.messageCounter + 1 }).2
        (broadcastGroup m
          (getSubscribersForMessageType (nows.headD 0) m.type
            { st with messageCounter := st.messageCounter + 1 }).1
          ((getSubscribersForMessageType (nows.headD 0) m.type
            { st with messageCounter := st.messageCounter + 1 }).2).queues g)) = _
  rw [if_neg (by simp [hm])]

theorem publishBatchAux_append :
    ∀ (xs ys : List Message) (nows : List ℤ) (st : Broker) (g : String → List Message),
      publishBatchAux (xs ++ ys) nows st g =
        publishBatchAux ys (nows.drop (broadcastCount xs))
          (publishBatchAux xs nows st g).1 (publishBatchAux xs nows st g).2 := by
  intro xs
  induction xs with
  | nil =>
    intro ys nows st g
    simp [publishBatchAux, broadcastCount]
  | cons m rest ih =>
    intro ys nows st g
    by_cases hm : m.recipients ≠ []
    · rw [show (m :: rest) ++ ys = m :: (rest ++ ys) from rfl]
      rw [publishBatchAux_cons_direct m (rest ++ ys) nows st g hm,
          publishBatchAux_cons_direct m rest nows st g hm]
      have hbc : broadcastCount (m :: rest) = broadcastCount rest := by
        unfold broadcastCount
        rw [List.countP_cons]
        simp [hm]
      rw [hbc]
      exact ih ys nows _ _
    · simp only [ne_eq, not_not] at hm
      rw [show (m :: rest) ++ ys = m :: (rest ++ ys) from rfl]
      rw [publishBatchAux_cons_broadcast m (rest ++ ys) nows st g hm,
          publishBatchAux_cons_broadcast m rest nows st g hm]
      have hbc : broadcastCount (m :: rest) = broadcastCount rest + 1 := by
        unfold broadcastCount
        rw [List.countP_cons]
        simp [hm]
      rw [hbc]
      have hdrop : nows.drop (broadcastCount rest + 1) = nows.tail.drop (broadcastCount rest) := by
        rw [← List.drop_one, List.drop_drop, Nat.add_comm]
      rw [hdrop]
      exact ih ys nows.tail _ _

theorem publishBatchAux_queues :
    ∀ (msgs : List Message) (nows : List ℤ) (st : Broker) (g : String → List Message),
      ((publishBatchAux msgs nows st g).1).queues = st.queues := by
  intro msgs
  induction msgs with
  | nil =>
    intro nows st g
    rfl
  | cons m rest ih =>
    intro nows st g
    unfold publishBatchAux
    by_cases hm : m.recipients ≠ []
    · rw [if_pos hm]
      exact ih nows _ _
    · rw [if_neg hm]
      rw [ih nows.tail _ _]
      exact getSubs_queues (nows.headD 0) m.type _

/-- Claim C4: in `publish_batch`, each registered recipient's inbox is
written in one pass, extended by exactly the messages grouped for it in
batch order: for every split of the batch into a prefix `xs` and a
suffix `ys`, the inbox of R after the call is the old inbox, then the
messages of `xs` delivered to R (in their batch order), then the
messages of `ys` delivered to R.  Hence for i < j, a message `mi`
delivered to R is always enqueued before a delivered `mj`. -/
theorem claim_C4_batch_order (st : Broker) (nows : List ℤ) (xs ys : List Message)
    (R : String) (q0 : List Message) (h : st.queues R = some q0) :
    (publishBatch nows (xs ++ ys) st).queues R =
      some (q0 ++ (publishBatchAux xs nows st (fun _ => [])).2 R ++
        (publishBatchAux ys (nows.drop (broadcastCount xs))
          (publishBatchAux xs nows st (fun _ => [])).1 (fun _ => [])).2 R) := by
  have happ := publishBatchAux_append xs ys nows st (fun _ => [])
  have hacc := publishBatchAux_acc ys (nows.drop (broadcastCount xs))
    (publishBatchAux xs nows st (fun _ => [])).1 (publishBatchAux xs nows st (fun _ => [])).2
  have hq1 := publishBatchAux_queues ys (nows.drop (broadcastCount xs))
    (publishBatchAux xs nows st (fun _ => [])).1 (fun _ => [])
  have hq2 := publishBatchAux_queues xs nows st (fun _ => [])
  show ((publishBatchAux (xs ++ ys) nows st (fun _ => [])).1.queues R).map
    (fun l => l ++ (publishBatchAux (xs ++ ys) nows st (fun _ => [])).2 R) = _
  rw [happ, hacc.1, hacc.2 R, hq1, hq2, h]
  simp [List.append_assoc]

/-- Witness for C4: a two-message batch `[e1, e2]` addressed to `R`
lands in R's inbox as `[e1, e2]`, matching the split decomposition. -/
theorem claim_C4_witness :
    c4Broker.queues "R" = some [] ∧
    (publishBatch [] ([c4Msg1] ++ [c4Msg2]) c4Broker).queues "R" =
      some ([] ++ (publishBatchAux [c4Msg1] [] c4Broker (fun _ => [])).2 "R" ++
        (publishBatchAux [c4Msg2] (([] : List ℤ).drop (broadcastCount [c4Msg1]))
          (publishBatchAux [c4Msg1] [] c4Broker (fun _ => [])).1 (fun _ => [])).2 "R") ∧
    (publishBatch [] ([c4Msg1] ++ [c4Msg2]) c4Broker).queues "R" = some [c4Msg1, c4Msg2] :=
  ⟨by decide,
   claim_C4_batch_order c4Broker [] [c4Msg1] [c4Msg2] "R" [] (by decide),
   by decide⟩

/-! Helper lemmas: every broker operation preserves cache coherence, and
no operation other than a subscribe of the pair (agent, kind) can make
that agent a subscriber of that kind again. -/

theorem registerAgent_subscribers (b : String) (st : Broker) :
    (registerAgent b st).subscribers = st.subscribers := by
  unfold registerAgent
  split <;> rfl

theorem registerAgent_coherent (b : String) (st : Broker) (hco : CacheCoherent st) :
    CacheCoherent (registerAgent b st) := by
  unfold registerAgent
  split <;> exact hco

theorem invalidateCacheFor_subscribers (t : MessageType) (st : Broker) :
    (invalidateCacheFor t st).subscribers = st.subscribers := by
  unfold invalidateCacheFor
  split <;> rfl

theorem invalidateCacheFor_subscribers_apply (t : MessageType) (st : Broker)
    (u : MessageType) :
    (invalidateCacheFor t st).subscribers u = st.subscribers u :=
  congrFun (invalidateCacheFor_subscribers t st) u

theorem subscribeOne_subscribers (b : String) (t : MessageType) (st : Broker) :
    (subscribeOne b t st).subscribers =
      fun u => if u = t then insert b (st.subscribers u) else st.subscribers u := by
  unfold subscribeOne
  rw [invalidateCacheFor_subscribers]

theorem subscribeOne_notSub (b : String) (t : MessageType) (st : Broker) (a : String)
    (K : MessageType) (h : a ∉ st.subscribers K) (hallow : b ≠ a ∨ K ≠ t) :
    a ∉ (subscribeOne b t st).subscribers K := by
  have hs := congrFun (subscribeOne_subscribers b t st) K
  rw [hs]
  by_cases hKt : K = t
  · rw [if_pos hKt]
    rcases hallow with hba | hKt2
    · intro hmem
      rcases Finset.mem_insert.mp hmem with heq | hmem2
      · exact hba heq.symm
      · exact h hmem2
    · exact absurd hKt hKt2
  · rw [if_neg hKt]
    exact h

theorem subscribeOne_coherent (b : String) (t : MessageType) (st : Broker)
    (hco : CacheCoherent st) : CacheCoherent (subscribeOne b t st) := by
  unfold subscribeOne invalidateCacheFor
  intro u
  by_cases hu : u = t
  · subst hu
    split
    · left
      simp
    · rename_i hnone
      left
      simpa [Option.not_isSome_iff_eq_none] using hnone
  · have h2 := hco u
    split
    · simpa [hu] using h2
    · simpa [hu] using h2

theorem subscribeAgent_notSub (b : String) (ts : List MessageType) (st : Broker)
    (a : String) (K : MessageType) (h : a ∉ st.subscribers K) (hallow : b ≠ a ∨ K ∉ ts) :
    a ∉ (subscribeAgent b ts st).subscribers K := by
  induction ts generalizing st with
  | nil => exact h
  | cons t rest ih =>
    show a ∉ (subscribeAgent b rest (subscribeOne b t st)).subscribers K
    apply ih (subscribeOne b t st)
    · apply subscribeOne_notSub b t st a K h
      rcases hallow with hba | hmem
      · exact Or.inl hba
      · exact Or.inr (fun hKt => hmem (by rw [hKt]; exact List.mem_cons_self t rest))
    · rcases hallow with hba | hmem
      · exact Or.inl hba
      · exact Or.inr (fun hK => hmem (List.mem_cons_of_mem t hK))

theorem subscribeAgent_coherent (b : String) (ts : List MessageType) (st : Broker)
    (hco : CacheCoherent st) : CacheCoherent (subscribeAgent b ts st) := by
  induction ts generalizing st with
  | nil => exact hco
  | cons t rest ih =>
    exact ih (subscribeOne b t st) (subscribeOne_coherent b t st hco)

theorem unsubscribeOne_notSub (b : String) (t : MessageType) (st : Broker) (a : String)
    (K : MessageType) (h : a ∉ st.subscribers K) :
    a ∉ (unsubscribeOne b t st).subscribers K := by
  unfold unsubscribeOne
  split
  · rw [invalidateCacheFor_subscribers_apply]
    show a ∉ (if K = t then (st.subscribers K).erase b else st.subscribers K)
    by_cases hKt : K = t
    · rw [if_pos hKt]
      intro hmem
      exact h (Finset.mem_of_mem_erase hmem)
    · rw [if_neg hKt]
      exact h
  · exact h

theorem unsubscribeOne_coherent (b : String) (t : MessageType) (st : Broker)
    (hco : CacheCoherent st) : CacheCoherent (unsubscribeOne b t st) := by
  unfold unsubscribeOne
  split
  · unfold invalidateCacheFor
    intro u
    by_cases hu : u = t
    · subst hu
      split
      · left
        simp
      · rename_i hnone
        left
        simpa [Option.not_isSome_iff_eq_none] using hnone
    · have h2 := hco u
      split
      · simpa [hu] using h2
      · simpa [hu] using h2
  · exact hco

theorem unsubscribeAgent_notSub (b : String) (ts : List MessageType) (st : Broker)
    (a : String) (K : MessageType) (h : a ∉ st.subscribers K) :
    a ∉ (unsubscribeAgent b ts st).subscribers K := by
  induction ts generalizing st with
  | nil => exact h
  | cons t rest ih =>
    exact ih (unsubscribeOne b t st) (unsubscribeOne_notSub b t st a K h)

theorem unsubscribeAgent_coherent (b : String) (ts : List MessageType) (st : Broker)
    (hco : CacheCoherent st) : CacheCoherent (unsubscribeAgent b ts st) := by
  induction ts generalizing st with
  | nil => exact hco
  | cons t rest ih =>
    exact ih (unsubscribeOne b t st) (unsubscribeOne_coherent b t st hco)

theorem unregisterAgent_subscribers_apply (b : String) (st : Broker) (u : MessageType) :
    (unregisterAgent b st).subscribers u =
      if b ∈ st.subscribers u then (st.subscribers u).erase b else st.subscribers u := by
  unfold unregisterAgent
  dsimp only
  split <;> rfl

theorem unregisterAgent_cache_apply (b : String) (st : Broker) (u : MessageType) :
    (unregisterAgent b st).subscribersCache u =
      if b ∈ st.subscribers u ∧ (st.subscribersCache u).isSome then none
      else st.subscribersCache u := by
  unfold unregisterAgent
  dsimp only
  split <;> rfl

theorem unregisterAgent_notSub (b : String) (st : Broker) (a : String) (K : MessageType)
    (h : a ∉ st.subscribers K) : a ∉ (unregisterAgent b st).subscribers K := by
  rw [unregisterAgent_subscribers_apply]
  split
  · intro hmem
    exact h (Finset.mem_of_mem_erase hmem)
  · exact h

theorem unregisterAgent_coherent (b : String) (st : Broker) (hco : CacheCoherent st) :
    CacheCoherent (unregisterAgent b st) := by
  intro u
  rw [unregisterAgent_cache_apply, unregisterAgent_subscribers_apply]
  by_cases hb : b ∈ st.subscribers u
  · by_cases hsome : (st.subscribersCache u).isSome
    · left
      rw [if_pos ⟨hb, hsome⟩]
    · left
      rw [if_neg (fun hc => hsome hc.2)]
      simpa [Option.not_isSome_iff_eq_none] using hsome
  · rw [if_neg (fun hc => hb hc.1), if_neg hb]
    exact hco u

theorem publish_subscribers (now : ℤ) (m : Message) (st : Broker) :
    (publish now m st).subscribers = st.subscribers := by
  unfold publish
  split
  · rfl
  · exact getSubs_subscribers now m.type _

theorem publish_coherent (now : ℤ) (m : Message) (st : Broker) (hco : CacheCoherent st) :
    CacheCoherent (publish now m st) := by
  unfold publish
  split
  · exact hco
  · exact getSubs_coherent now m.type _ hco

theorem publish_broadcast_skips_unsubscribed (now : ℤ) (m : Message) (st : Broker)
    (a : String) (hco : CacheCoherent st) (hb : m.recipients = [])
    (ha : a ∉ st.subscribers m.type) :
    (publish now m st).queues a = st.queues a := by
  rw [publish_broadcast_queues now m st hco hb a, if_neg]
  intro hcond
  exact ha hcond.1

theorem publishBatchAux_subscribers :
    ∀ (msgs : List Message) (nows : List ℤ) (st : Broker) (g : String → List Message),
      ((publishBatchAux msgs nows st g).1).subscribers = st.subscribers := by
  intro msgs
  induction msgs with
  | nil =>
    intro nows st g
    rfl
  | cons m rest ih =>
    intro nows st g
    unfold publishBatchAux
    by_cases hm : m.recipients ≠ []
    · rw [if_pos hm]
      exact ih nows _ _
    · rw [if_neg hm]
      rw [ih nows.tail _ _]
      exact getSubs_subscribers (nows.headD 0) m.type _

theorem publishBatchAux_coherent :
    ∀ (msgs : List Message) (nows : List ℤ) (st : Broker) (g : String → List Message),
      CacheCoherent st → CacheCoherent (publishBatchAux msgs nows st g).1 := by
  intro msgs
  induction msgs with
  | nil =>
    intro nows st g hco
    exact hco
  | cons m rest ih =>
    intro nows st g hco
    unfold publishBatchAux
    by_cases hm : m.recipients ≠ []
    · rw [if_pos hm]
      exact ih nows _ _ hco
    · rw [if_neg hm]
      exact ih nows.tail _ _ (getSubs_coherent (nows.headD 0) m.type _ hco)

theorem publishBatch_subscribers (nows : List ℤ) (msgs : List Message) (st : Broker) :
    (publishBatch nows msgs st).subscribers = st.subscribers := by
  unfold publishBatch
  exact publishBatchAux_subscribers msgs nows st (fun _ => [])

theorem publishBatch_coherent (nows : List ℤ) (msgs : List Message) (st : Broker)
    (hco : CacheCoherent st) : CacheCoherent (publishBatch nows msgs st) := by
  unfold publishBatch
  exact publishBatchAux_coherent msgs nows st (fun _ => []) hco

theorem stepOp_coherent (op : BrokerOp) (st : Broker) (hco : CacheCoherent st) :
    CacheCoherent (stepOp op st) := by
  cases op with
  | registerA b => exact registerAgent_coherent b st hco
  | unregisterA b => exact unregisterAgent_coherent b st hco
  | subscribeA b ts => exact subscribeAgent_coherent b ts st hco
  | unsubscribeA b ts => exact unsubscribeAgent_coherent b ts st hco
  | publishA now m => exact publish_coherent now m st hco
  | publishBatchA nows ms => exact publishBatch_coherent nows ms st hco

theorem stepOp_notSub (a : String) (K : MessageType) (op : BrokerOp) (st : Broker)
    (hop : allowsStayUnsub a K op = true) (hns : a ∉ st.subscribers K) :
    a ∉ (stepOp op st).subscribers K := by
  cases op with
  | registerA b =>
    rw [show stepOp (.registerA b) st = registerAgent b st from rfl, registerAgent_subscribers]
    exact hns
  | unregisterA b => exact unregisterAgent_notSub b st a K hns
  | subscribeA b ts =>
    apply subscribeAgent_notSub b ts st a K hns
    by_cases hba : b = a
    · right
      intro hKts
      rw [show allowsStayUnsub a K (.subscribeA b ts) =
        !(decide (b = a) && decide (K ∈ ts)) from rfl] at hop
      rw [decide_eq_true hba, decide_eq_true hKts] at hop
      simp at hop
    · exact Or.inl hba
  | unsubscribeA b ts => exact unsubscribeAgent_notSub b ts st a K hns
  | publishA now m =>
    rw [show stepOp (.publishA now m) st = publish now m st from rfl, publish_subscribers]
    exact hns
  | publishBatchA nows ms =>
    rw [show stepOp (.publishBatchA nows ms) st = publishBatch nows ms st from rfl,
      publishBatch_subscribers]
    exact hns

theorem runOps_coherent (ops : List BrokerOp) (st : Broker) (hco : CacheCoherent st) :
    CacheCoherent (runOps ops st) := by
  induction ops generalizing st with
  | nil => exact hco
  | cons op rest ih => exact ih (stepOp op st) (stepOp_coherent op st hco)

theorem runOps_notSub (a : String) (K : MessageType) (ops : List BrokerOp) (st : Broker)
    (hops : ∀ op ∈ ops, allowsStayUnsub a K op = true) (hns : a ∉ st.subscribers K) :
    a ∉ (runOps ops st).subscribers K := by
  induction ops generalizing st with
  | nil => exact hns
  | cons op rest ih =>
    exact ih (stepOp op st)
      (fun o ho => hops o (List.mem_cons_of_mem op ho))
      (stepOp_notSub a K op st (hops op (List.mem_cons_self op rest)) hns)

theorem unsubscribeAgent_single_removes (a : String) (K : MessageType) (st : Broker) :
    a ∉ (unsubscribeAgent a [K] st).subscribers K := by
  show a ∉ (unsubscribeOne a K st).subscribers K
  unfold unsubscribeOne
  split
  · rw [invalidateCacheFor_subscribers_apply]
    show a ∉ (if K = K then (st.subscribers K).erase a else st.subscribers K)
    rw [if_pos rfl]
    exact Finset.not_mem_erase a (st.subscribers K)
  · rename_i hnotin
    exact hnotin

/-- Claim C8: after `unsubscribe(a, K)`, no later broadcast of kind K is
delivered to `a`, whatever broker activity happens in between (any
sequence of operations that does not subscribe `a` to K again) and
whatever the state of the subscriber cache was: the unsubscription both
removes `a` from the subscriber set of K and invalidates the cached
snapshot for K, and every subsequent operation keeps the cache coherent,
so no later publish can resolve a snapshot containing `a`. -/
theorem claim_C8_unsubscribe_no_broadcast_delivery (st : Broker) (a : String)
    (K : MessageType) (hco : CacheCoherent st) (ops : List BrokerOp)
    (hops : ∀ op ∈ ops, allowsStayUnsub a K op = true)
    (now : ℤ) (m : Message) (hb : m.recipients = []) (hK : m.type = K) :
    (publish now m (runOps ops (unsubscribeAgent a [K] st))).queues a =
      (runOps ops (unsubscribeAgent a [K] st)).queues a := by
  have h0co : CacheCoherent (unsubscribeAgent a [K] st) :=
    unsubscribeAgent_coherent a [K] st hco
  have h0ns : a ∉ (unsubscribeAgent a [K] st).subscribers K :=
    unsubscribeAgent_single_removes a K st
  have hrco := runOps_coherent ops (unsubscribeAgent a [K] st) h0co
  have hrns := runOps_notSub a K ops (unsubscribeAgent a [K] st) hops h0ns
  apply publish_broadcast_skips_unsubscribed now m _ a hrco hb
  rw [hK]
  exact hrns

/-- Witness for C8: `A` unsubscribes from `system_status`; after an
interleaved broadcast of the same kind (which refreshes the cache) and a
registration, a further `system_status` broadcast leaves the inbox of
`A` untouched. -/
theorem claim_C8_witness :
    CacheCoherent c8Broker ∧
    (∀ op ∈ c8Ops, allowsStayUnsub "A" MessageType.SYSTEM_STATUS op = true) ∧
    c8Msg.recipients = [] ∧
    c8Msg.type = MessageType.SYSTEM_STATUS ∧
    (publish 1000 c8Msg
      (runOps c8Ops (unsubscribeAgent "A" [MessageType.SYSTEM_STATUS] c8Broker))).queues "A" =
      (runOps c8Ops (unsubscribeAgent "A" [MessageType.SYSTEM_STATUS] c8Broker)).queues "A" :=
  ⟨by decide, by decide, rfl, rfl,
   claim_C8_unsubscribe_no_broadcast_delivery c8Broker "A" MessageType.SYSTEM_STATUS
     (by decide) c8Ops (by decide) 1000 c8Msg rfl rfl⟩
